import Mathlib

/-!
# Frontegg permission resource: embedding and properties

Shallow embedding of `provider/resource_frontegg_permission.go`.

* The wire record `fronteggPermission` is the Go struct of the same name.
* `ResourceData` stands for the `*schema.ResourceData` handle restricted to the
  schema of this resource (the identity and the five string attributes).  The
  handle also carries `attempts`, a record of the keys passed to `d.Set`, in
  call order, so that "which assignments were attempted" can be stated.
* `StateStore` is the decision of the state store on one `d.Set(key, value)`:
  either it rejects the assignment with an error or the attribute is written.
* `Client` is `restclient.Client`: its four calls are parameters, threaded
  through a remote state `σ` so that a later call may see the effect of an
  earlier one.  Every lifecycle operation returns, next to its diagnostics and
  the resulting handle, the sequence of remote calls it issued.
-/

namespace Provider

/-- Go `error` value, identified by the message `err.Error()` returns. -/
structure GoError where
  msg : String
deriving DecidableEq, Repr

/-- Severity of a diagnostic (`diag.Severity`). -/
inductive Severity where
  | Error
  | Warning
deriving DecidableEq, Repr

/-- One diagnostic (`diag.Diagnostic`), restricted to severity and summary. -/
structure Diagnostic where
  severity : Severity
  summary : String
deriving DecidableEq, Repr

/-- Go `diag.Diagnostics`: `none` is the `nil` slice, `some l` a non-nil slice. -/
abbrev Diagnostics := Option (List Diagnostic)

/-- Go `diag.FromErr(err)` for a non-nil `err`. -/
def diagFromErr (err : GoError) : Diagnostics :=
  some [{ severity := Severity.Error, summary := err.msg }]

/-- Go `diag.Errorf(format, n)` for the format used in this file: the message
followed by the decimal rendering of `n` (`%d`). -/
def diagErrorf (fmt : String) (n : Nat) : Diagnostics :=
  some [{ severity := Severity.Error, summary := fmt ++ toString n }]

/-- Go `Diagnostics.HasError`: some diagnostic has severity `Error`. -/
def HasError : Diagnostics → Bool
  | none => false
  | some l => l.any (fun x => decide (x.severity = Severity.Error))

/-- The constant `fronteggPermissionPath`. -/
def fronteggPermissionPath : String :=
  "https://api.frontegg.com/identity/resources/permissions/v1"

/-- The wire record `fronteggPermission`; a field left out of a struct literal
is the empty string. -/
structure fronteggPermission where
  ID : String := ""
  CategoryID : String := ""
  Name : String := ""
  Key : String := ""
  Description : String := ""
  CreatedAt : String := ""
deriving DecidableEq, Repr

/-- The declared state behind `*schema.ResourceData` for this resource's schema:
the identity, the four required attributes and the computed `created_at`.
`attempts` lists the keys of the `d.Set` calls made so far, oldest first. -/
structure ResourceData where
  id : String := ""
  name : String := ""
  key : String := ""
  category_id : String := ""
  description : String := ""
  created_at : String := ""
  attempts : List String := []
deriving DecidableEq, Repr

/-- The state store's verdict on an assignment `d.Set(key, value)`:
`some err` rejects it, `none` accepts it. -/
structure StateStore where
  reject : String → String → Option GoError

/-- Go `d.Id()`. -/
def ResourceData.Id (d : ResourceData) : String := d.id

/-- Go `d.SetId(v)`. -/
def ResourceData.SetId (d : ResourceData) (v : String) : ResourceData :=
  { d with id := v }

/-- Go `d.Get(key).(string)` on this resource's schema; a key outside the schema
reads as the zero value. -/
def ResourceData.Get (d : ResourceData) (key : String) : String :=
  if key = "name" then d.name
  else if key = "key" then d.key
  else if key = "category_id" then d.category_id
  else if key = "description" then d.description
  else if key = "created_at" then d.created_at
  else ""

/-- Go `d.Set(key, value)`: the call is recorded; a rejected assignment returns
the store's error and writes nothing, an accepted one writes the attribute.
A key outside the schema is an error. -/
def ResourceData.Set (st : StateStore) (d : ResourceData) (key value : String) :
    ResourceData × Option GoError :=
  let d0 := { d with attempts := d.attempts ++ [key] }
  match st.reject key value with
  | some err => (d0, some err)
  | none =>
    if key = "name" then ({ d0 with name := value }, none)
    else if key = "key" then ({ d0 with key := value }, none)
    else if key = "category_id" then ({ d0 with category_id := value }, none)
    else if key = "description" then ({ d0 with description := value }, none)
    else if key = "created_at" then ({ d0 with created_at := value }, none)
    else (d0, some { msg := "Invalid address to set: " ++ key })

/-- The function `resourceFronteggPermissionSerialize`. -/
def resourceFronteggPermissionSerialize (d : ResourceData) : fronteggPermission :=
  { Name := d.Get "name"
    Key := d.Get "key"
    CategoryID := d.Get "category_id"
    Description := d.Get "description" }

/-- The function `resourceFronteggPermissionDeserialize`: `SetId`, then the five
assignments in source order, returning at the first one that fails. The handle
is mutated in place, so the writes made before a failure are kept. -/
def resourceFronteggPermissionDeserialize (st : StateStore) (d : ResourceData)
    (f : fronteggPermission) : ResourceData × Option GoError :=
  let d0 := d.SetId f.ID
  match d0.Set st "name" f.Name with
  | (d1, some err) => (d1, some err)
  | (d1, none) =>
  match d1.Set st "key" f.Key with
  | (d2, some err) => (d2, some err)
  | (d2, none) =>
  match d2.Set st "category_id" f.CategoryID with
  | (d3, some err) => (d3, some err)
  | (d3, none) =>
  match d3.Set st "description" f.Description with
  | (d4, some err) => (d4, some err)
  | (d4, none) =>
  match d4.Set st "created_at" f.CreatedAt with
  | (d5, some err) => (d5, some err)
  | (d5, none) => (d5, none)

/-- The `restclient.Client` collaborator: each call takes the remote state and
returns the next remote state with its result. `Post` and `Get` decode a
collection of wire records; `Patch` and `Delete` are called with a `nil`
output and yield only an optional error. -/
structure Client (σ : Type) where
  Post : σ → String → List fronteggPermission → σ × Except GoError (List fronteggPermission)
  Get : σ → String → σ × Except GoError (List fronteggPermission)
  Patch : σ → String → fronteggPermission → σ × Option GoError
  Delete : σ → String → σ × Option GoError

/-- One remote call, with the URL and the request body it was given. -/
inductive Call where
  | Post (url : String) (body : List fronteggPermission)
  | Get (url : String)
  | Patch (url : String) (body : fronteggPermission)
  | Delete (url : String)
deriving DecidableEq, Repr

/-- What a lifecycle operation leaves behind: the diagnostics it returns, the
handle after its in-place mutations, the remote state, and the remote calls it
issued, in order. -/
structure Outcome (σ : Type) where
  diags : Diagnostics
  d : ResourceData
  remote : σ
  calls : List Call

/-- The function `resourceFronteggPermissionCreate`. `out[0]` is read only after
the length test, so the empty case of the inner match is never reached. -/
def resourceFronteggPermissionCreate {σ : Type} (st : StateStore) (client : Client σ)
    (s : σ) (d : ResourceData) : Outcome σ :=
  let input := [resourceFronteggPermissionSerialize d]
  let sent := [Call.Post fronteggPermissionPath input]
  match client.Post s fronteggPermissionPath input with
  | (s1, Except.error err) => ⟨diagFromErr err, d, s1, sent⟩
  | (s1, Except.ok out) =>
    if out.length ≠ 1 then
      ⟨diagErrorf "server returned unexpected number of results when creating permission: "
        out.length, d, s1, sent⟩
    else
      match out with
      | [] => ⟨diagErrorf "server returned unexpected number of results when creating permission: "
          out.length, d, s1, sent⟩
      | o :: _ =>
        match resourceFronteggPermissionDeserialize st d o with
        | (d1, some err) => ⟨diagFromErr err, d1, s1, sent⟩
        | (d1, none) => ⟨none, d1, s1, sent⟩

/-- The loop of `resourceFronteggPermissionRead` over the decoded collection,
with the two statements that follow it: the first record whose `ID` equals
`d.Id()` is deserialized into `d`; when none matches, the identity is cleared
and `nil` is returned. -/
def readScan (st : StateStore) (d : ResourceData) :
    List fronteggPermission → Diagnostics × ResourceData
  | [] => (none, d.SetId "")
  | c :: rest =>
    if c.ID = d.Id then
      match resourceFronteggPermissionDeserialize st d c with
      | (d1, some err) => (diagFromErr err, d1)
      | (d1, none) => (some [], d1)
    else readScan st d rest

/-- The function `resourceFronteggPermissionRead`. -/
def resourceFronteggPermissionRead {σ : Type} (st : StateStore) (client : Client σ)
    (s : σ) (d : ResourceData) : Outcome σ :=
  let sent := [Call.Get fronteggPermissionPath]
  match client.Get s fronteggPermissionPath with
  | (s1, Except.error err) => ⟨diagFromErr err, d, s1, sent⟩
  | (s1, Except.ok out) =>
    let r := readScan st d out
    ⟨r.1, r.2, s1, sent⟩

/-- The function `resourceFronteggPermissionUpdate`. -/
def resourceFronteggPermissionUpdate {σ : Type} (st : StateStore) (client : Client σ)
    (s : σ) (d : ResourceData) : Outcome σ :=
  let input := resourceFronteggPermissionSerialize d
  let url := fronteggPermissionPath ++ "/" ++ d.Id
  match client.Patch s url input with
  | (s1, some err) => ⟨diagFromErr err, d, s1, [Call.Patch url input]⟩
  | (s1, none) =>
    let r := resourceFronteggPermissionRead st client s1 d
    ⟨r.diags, r.d, r.remote, Call.Patch url input :: r.calls⟩

/-- The five assignments `resourceFronteggPermissionDeserialize` makes for a
wire record, as key and value, in source order. -/
def assignments (f : fronteggPermission) : List (String × String) :=
  [("name", f.Name), ("key", f.Key), ("category_id", f.CategoryID),
   ("description", f.Description), ("created_at", f.CreatedAt)]

/-- The store accepts every assignment made for the wire record `f`. -/
def Accepts (st : StateStore) (f : fronteggPermission) : Prop :=
  ∀ kv ∈ assignments f, st.reject kv.1 kv.2 = none

/-- A store that accepts every assignment. -/
def acceptAll : StateStore := { reject := fun _ _ => none }

/-- A store that rejects exactly the assignments to `k`. -/
def rejectKey (k : String) (e : GoError) : StateStore :=
  { reject := fun key _ => if key = k then some e else none }

/-- A stateless remote that answers every create and list call with `out` and
lets patch and delete succeed. -/
def constClient (out : List fronteggPermission) : Client Unit :=
  { Post := fun s _ _ => (s, Except.ok out)
    Get := fun s _ => (s, Except.ok out)
    Patch := fun s _ _ => (s, none)
    Delete := fun s _ => (s, none) }

/-- A remote whose state is the stored collection: create and list return it,
patch overwrites the four attributes of every stored record with those of the
request body, delete empties it. -/
def storeClient : Client (List fronteggPermission) :=
  { Post := fun s _ _ => (s, Except.ok s)
    Get := fun s _ => (s, Except.ok s)
    Patch := fun s _ b =>
      (s.map (fun r => { r with Name := b.Name, Key := b.Key,
                                CategoryID := b.CategoryID, Description := b.Description }), none)
    Delete := fun _ _ => ([], none) }

/-- The declared state is Present: identity and creation timestamp are set. -/
def Present (d : ResourceData) : Prop := d.id ≠ "" ∧ d.created_at ≠ ""

/-- The declared state of the scenario in the specification, not yet created. -/
def declaredReadUsers : ResourceData :=
  { name := "Read Users", key := "read:users", category_id := "cat-1", description := "desc" }

/-- The record the remote returns in the scenario of the specification. -/
def remoteReadUsers : fronteggPermission :=
  { ID := "p-1", CategoryID := "cat-1", Name := "Read Users", Key := "read:users",
    Description := "desc", CreatedAt := "2024-01-01T00:00:00Z" }

/-- The handle after a deserialization in which all five assignments went
through. -/
def refreshed (d : ResourceData) (f : fronteggPermission) : ResourceData :=
  { id := f.ID, name := f.Name, key := f.Key, category_id := f.CategoryID,
    description := f.Description, created_at := f.CreatedAt,
    attempts := d.attempts ++ ["name", "key", "category_id", "description", "created_at"] }

instance instDecidableAccepts (st : StateStore) (f : fronteggPermission) :
    Decidable (Accepts st f) := by
  unfold Accepts; infer_instance

instance instDecidablePresent (d : ResourceData) : Decidable (Present d) := by
  unfold Present; infer_instance

/-! ## Lemmas on the state handle and the codec -/

theorem Set_rejected (st : StateStore) (d : ResourceData) (k v : String) (e : GoError)
    (h : st.reject k v = some e) :
    d.Set st k v = ({ d with attempts := d.attempts ++ [k] }, some e) := by
  simp [ResourceData.Set, h]

theorem Set_name (st : StateStore) (d : ResourceData) (v : String)
    (h : st.reject "name" v = none) :
    d.Set st "name" v = ({ d with attempts := d.attempts ++ ["name"], name := v }, none) := by
  simp [ResourceData.Set, h]

theorem Set_key (st : StateStore) (d : ResourceData) (v : String)
    (h : st.reject "key" v = none) :
    d.Set st "key" v = ({ d with attempts := d.attempts ++ ["key"], key := v }, none) := by
  simp [ResourceData.Set, h]

theorem Set_category_id (st : StateStore) (d : ResourceData) (v : String)
    (h : st.reject "category_id" v = none) :
    d.Set st "category_id" v =
      ({ d with attempts := d.attempts ++ ["category_id"], category_id := v }, none) := by
  simp [ResourceData.Set, h]

theorem Set_description (st : StateStore) (d : ResourceData) (v : String)
    (h : st.reject "description" v = none) :
    d.Set st "description" v =
      ({ d with attempts := d.attempts ++ ["description"], description := v }, none) := by
  simp [ResourceData.Set, h]

theorem Set_created_at (st : StateStore) (d : ResourceData) (v : String)
    (h : st.reject "created_at" v = none) :
    d.Set st "created_at" v =
      ({ d with attempts := d.attempts ++ ["created_at"], created_at := v }, none) := by
  simp [ResourceData.Set, h]

theorem deserialize_of_accepts (st : StateStore) (d : ResourceData) (f : fronteggPermission)
    (h : Accepts st f) :
    resourceFronteggPermissionDeserialize st d f = (refreshed d f, none) := by
  have h1 : st.reject "name" f.Name = none := h ("name", f.Name) (by simp [assignments])
  have h2 : st.reject "key" f.Key = none := h ("key", f.Key) (by simp [assignments])
  have h3 : st.reject "category_id" f.CategoryID = none :=
    h ("category_id", f.CategoryID) (by simp [assignments])
  have h4 : st.reject "description" f.Description = none :=
    h ("description", f.Description) (by simp [assignments])
  have h5 : st.reject "created_at" f.CreatedAt = none :=
    h ("created_at", f.CreatedAt) (by simp [assignments])
  simp [resourceFronteggPermissionDeserialize, Set_name, Set_key, Set_category_id,
    Set_description, Set_created_at, h1, h2, h3, h4, h5, ResourceData.SetId, refreshed]

theorem accepts_of_deserialize_ok (st : StateStore) (d : ResourceData) (f : fronteggPermission)
    (h : (resourceFronteggPermissionDeserialize st d f).2 = none) : Accepts st f := by
  cases h1 : st.reject "name" f.Name with
  | some e => simp [resourceFronteggPermissionDeserialize, Set_rejected _ _ _ _ _ h1] at h
  | none =>
  cases h2 : st.reject "key" f.Key with
  | some e =>
    simp [resourceFronteggPermissionDeserialize, Set_name _ _ _ h1, Set_rejected _ _ _ _ _ h2] at h
  | none =>
  cases h3 : st.reject "category_id" f.CategoryID with
  | some e =>
    simp [resourceFronteggPermissionDeserialize, Set_name _ _ _ h1, Set_key _ _ _ h2,
      Set_rejected _ _ _ _ _ h3] at h
  | none =>
  cases h4 : st.reject "description" f.Description with
  | some e =>
    simp [resourceFronteggPermissionDeserialize, Set_name _ _ _ h1, Set_key _ _ _ h2,
      Set_category_id _ _ _ h3, Set_rejected _ _ _ _ _ h4] at h
  | none =>
  cases h5 : st.reject "created_at" f.CreatedAt with
  | some e =>
    simp [resourceFronteggPermissionDeserialize, Set_name _ _ _ h1, Set_key _ _ _ h2,
      Set_category_id _ _ _ h3, Set_description _ _ _ h4, Set_rejected _ _ _ _ _ h5] at h
  | none =>
    intro kv hkv
    simp only [assignments, List.mem_cons, List.mem_singleton, List.not_mem_nil, or_false] at hkv
    rcases hkv with rfl | rfl | rfl | rfl | rfl <;> assumption

/-- The loop of Read is a search for the first record with the handle's
identity. -/
theorem readScan_eq_find (st : StateStore) (d : ResourceData) (out : List fronteggPermission) :
    readScan st d out =
      match out.find? (fun c => decide (c.ID = d.Id)) with
      | none => (none, d.SetId "")
      | some c =>
        match resourceFronteggPermissionDeserialize st d c with
        | (d1, some err) => (diagFromErr err, d1)
        | (d1, none) => (some [], d1) := by
  induction out with
  | nil => simp [readScan]
  | cons c rest ih =>
    by_cases hc : c.ID = d.Id
    · simp [readScan, hc, List.find?]
    · simp [readScan, hc, List.find?, ih]

/-! ## Create -/

/-- C1: Create count contract. When the create call succeeds with the response
collection `out`: if `out` has 0 or at least 2 records, Create returns the
unexpected-result-count error diagnostic; if `out` is a single record `o` and
the store accepts the writes, Create returns no error and the identity of the
handle is `o.ID`. -/
theorem create_count_contract {σ : Type} (st : StateStore) (client : Client σ) (s s1 : σ)
    (d : ResourceData) (out : List fronteggPermission)
    (hpost : client.Post s fronteggPermissionPath [resourceFronteggPermissionSerialize d]
      = (s1, Except.ok out)) :
    ((out.length = 0 ∨ 2 ≤ out.length) →
      (resourceFronteggPermissionCreate st client s d).diags =
        diagErrorf "server returned unexpected number of results when creating permission: "
          out.length ∧
      HasError (resourceFronteggPermissionCreate st client s d).diags = true) ∧
    (∀ o, out = [o] → Accepts st o →
      (resourceFronteggPermissionCreate st client s d).diags = none ∧
      HasError (resourceFronteggPermissionCreate st client s d).diags = false ∧
      (resourceFronteggPermissionCreate st client s d).d.Id = o.ID) := by
  constructor
  · intro hlen
    have hne : out.length ≠ 1 := by omega
    simp [resourceFronteggPermissionCreate, hpost, hne, diagErrorf, HasError]
  · intro o ho hacc
    subst ho
    simp [resourceFronteggPermissionCreate, hpost, deserialize_of_accepts st d o hacc,
      HasError, refreshed, ResourceData.Id]

/-- C1, at the scenario of the specification: the remote answers with the one
record `p-1`, and the handle takes that identity. -/
theorem create_count_contract_witness :
    (resourceFronteggPermissionCreate acceptAll (constClient [remoteReadUsers]) ()
        declaredReadUsers).diags = none ∧
    (resourceFronteggPermissionCreate acceptAll (constClient [remoteReadUsers]) ()
        declaredReadUsers).d.Id = "p-1" :=
  let h := (create_count_contract acceptAll (constClient [remoteReadUsers]) () ()
    declaredReadUsers [remoteReadUsers] rfl).2 remoteReadUsers rfl (by decide)
  ⟨h.1, h.2.2⟩

/-- C6: Create is atomic on a wrong result count. When the create call succeeds
with a response whose length is not 1, the handle is left exactly as it was (no
identity assigned, no assignment attempted); in particular an empty identity
stays empty. -/
theorem create_wrong_count_atomic {σ : Type} (st : StateStore) (client : Client σ) (s s1 : σ)
    (d : ResourceData) (out : List fronteggPermission)
    (hpost : client.Post s fronteggPermissionPath [resourceFronteggPermissionSerialize d]
      = (s1, Except.ok out))
    (hlen : out.length ≠ 1) :
    (resourceFronteggPermissionCreate st client s d).d = d ∧
    (d.Id = "" → (resourceFronteggPermissionCreate st client s d).d.Id = "") := by
  have h : (resourceFronteggPermissionCreate st client s d).d = d := by
    simp [resourceFronteggPermissionCreate, hpost, hlen]
  exact ⟨h, fun hid => by rw [h]; exact hid⟩

/-- C6, at the scenario of the specification: the remote answers with the empty
collection and the handle is unchanged, identity still empty. -/
theorem create_wrong_count_atomic_witness :
    (resourceFronteggPermissionCreate acceptAll (constClient []) () declaredReadUsers).d
      = declaredReadUsers ∧
    (resourceFronteggPermissionCreate acceptAll (constClient []) () declaredReadUsers).d.Id
      = "" :=
  let h := create_wrong_count_atomic acceptAll (constClient []) () () declaredReadUsers []
    rfl (by decide)
  ⟨h.1, h.2 rfl⟩

/-- C9 as stated fails: a remote that answers the create call with one record
carrying no id and no timestamp makes Create succeed while the handle has an
empty identity, so it is not Present. -/
theorem create_success_not_present :
    ¬ ∀ (st : StateStore) (client : Client Unit) (d : ResourceData),
      HasError (resourceFronteggPermissionCreate st client () d).diags = false →
      Present (resourceFronteggPermissionCreate st client () d).d := by
  intro h
  have hp := h acceptAll (constClient [{}]) declaredReadUsers (by decide)
  exact hp.1 (by decide)

/-- C9, amended: if Create returns without an error diagnostic, then the create
call answered with exactly one record `o`, every assignment was accepted, and
the handle's identity and `created_at` are those of `o`; so the handle is
Present whenever `o.ID` and `o.CreatedAt` are non-empty. -/
theorem create_success_takes_remote_identity {σ : Type} (st : StateStore) (client : Client σ)
    (s : σ) (d : ResourceData)
    (hok : HasError (resourceFronteggPermissionCreate st client s d).diags = false) :
    ∃ s1 o,
      client.Post s fronteggPermissionPath [resourceFronteggPermissionSerialize d]
        = (s1, Except.ok [o]) ∧
      (resourceFronteggPermissionCreate st client s d).d.Id = o.ID ∧
      (resourceFronteggPermissionCreate st client s d).d.created_at = o.CreatedAt ∧
      (o.ID ≠ "" → o.CreatedAt ≠ "" →
        Present (resourceFronteggPermissionCreate st client s d).d) := by
  rcases hpost : client.Post s fronteggPermissionPath [resourceFronteggPermissionSerialize d]
    with ⟨s1, r⟩
  cases r with
  | error e =>
    simp [resourceFronteggPermissionCreate, hpost, diagFromErr, HasError] at hok
  | ok out =>
    by_cases hlen : out.length = 1
    · obtain ⟨o, rfl⟩ := List.length_eq_one.mp hlen
      refine ⟨s1, o, rfl, ?_⟩
      cases hdes : (resourceFronteggPermissionDeserialize st d o).2 with
      | some e =>
        rcases hpair : resourceFronteggPermissionDeserialize st d o with ⟨d1, r1⟩
        rw [hpair] at hdes
        simp only at hdes
        subst hdes
        simp [resourceFronteggPermissionCreate, hpost, hpair, diagFromErr, HasError] at hok
      | none =>
        have hacc := accepts_of_deserialize_ok st d o hdes
        simp [resourceFronteggPermissionCreate, hpost, deserialize_of_accepts st d o hacc,
          refreshed, ResourceData.Id, Present]
        intro h1 h2
        exact ⟨h1, h2⟩
    · simp [resourceFronteggPermissionCreate, hpost, hlen, diagErrorf, HasError] at hok

/-- C9 amended, at the scenario of the specification: Create succeeds and the
handle is Present, the returned record carrying an id and a timestamp. -/
theorem create_success_takes_remote_identity_witness :
    HasError (resourceFronteggPermissionCreate acceptAll (constClient [remoteReadUsers]) ()
      declaredReadUsers).diags = false ∧
    Present (resourceFronteggPermissionCreate acceptAll (constClient [remoteReadUsers]) ()
      declaredReadUsers).d := by
  refine ⟨by decide, ?_⟩
  obtain ⟨s1, o, hp, -, -, hpres⟩ := create_success_takes_remote_identity acceptAll
    (constClient [remoteReadUsers]) () declaredReadUsers (by decide)
  have ho : remoteReadUsers = o := by
    simpa [constClient] using hp
  subst ho
  exact hpres (by decide) (by decide)

/-! ## Read -/

/-- C2: Read drift. When the list call succeeds with a collection holding no
record whose `ID` is the handle's identity (the empty collection included),
Read returns `nil` diagnostics, hence no error, and the identity of the handle
becomes the empty string. -/
theorem read_drift_clears_identity {σ : Type} (st : StateStore) (client : Client σ) (s s1 : σ)
    (d : ResourceData) (out : List fronteggPermission)
    (hget : client.Get s fronteggPermissionPath = (s1, Except.ok out))
    (hno : ∀ c ∈ out, c.ID ≠ d.Id) :
    (resourceFronteggPermissionRead st client s d).diags = none ∧
    HasError (resourceFronteggPermissionRead st client s d).diags = false ∧
    (resourceFronteggPermissionRead st client s d).d.Id = "" := by
  have hfind : out.find? (fun c => decide (c.ID = d.Id)) = none := by
    rw [List.find?_eq_none]
    intro c hc
    simpa using hno c hc
  have hscan : readScan st d out = (none, d.SetId "") := by
    rw [readScan_eq_find, hfind]
  simp [resourceFronteggPermissionRead, hget, hscan, HasError,
    ResourceData.SetId, ResourceData.Id]

/-- C2, at the scenario of the specification: identity `p-1` against a list that
holds only `p-2`. -/
theorem read_drift_clears_identity_witness :
    (resourceFronteggPermissionRead acceptAll
        (constClient [{ remoteReadUsers with ID := "p-2" }]) ()
        { declaredReadUsers with id := "p-1" }).diags = none ∧
    (resourceFronteggPermissionRead acceptAll
        (constClient [{ remoteReadUsers with ID := "p-2" }]) ()
        { declaredReadUsers with id := "p-1" }).d.Id = "" :=
  let h := read_drift_clears_identity acceptAll
    (constClient [{ remoteReadUsers with ID := "p-2" }]) () ()
    { declaredReadUsers with id := "p-1" } [{ remoteReadUsers with ID := "p-2" }] rfl
    (by decide)
  ⟨h.1, h.2.2⟩

/-- C3: Read refresh by list scan. When the list call succeeds and `c` is the
first record of the collection whose `ID` is the handle's identity, and the
store accepts the writes, Read returns no error, the handle's name, key,
category, description and `created_at` are those of `c`, and its identity is
unchanged. -/
theorem read_refreshes_from_first_match {σ : Type} (st : StateStore) (client : Client σ)
    (s s1 : σ) (d : ResourceData) (out : List fronteggPermission) (c : fronteggPermission)
    (hget : client.Get s fronteggPermissionPath = (s1, Except.ok out))
    (hfirst : out.find? (fun x => decide (x.ID = d.Id)) = some c)
    (hacc : Accepts st c) :
    HasError (resourceFronteggPermissionRead st client s d).diags = false ∧
    (resourceFronteggPermissionRead st client s d).d.name = c.Name ∧
    (resourceFronteggPermissionRead st client s d).d.key = c.Key ∧
    (resourceFronteggPermissionRead st client s d).d.category_id = c.CategoryID ∧
    (resourceFronteggPermissionRead st client s d).d.description = c.Description ∧
    (resourceFronteggPermissionRead st client s d).d.created_at = c.CreatedAt ∧
    (resourceFronteggPermissionRead st client s d).d.Id = d.Id := by
  have hid : c.ID = d.Id := by
    simpa using List.find?_some hfirst
  have hscan : readScan st d out = (some [], refreshed d c) := by
    rw [readScan_eq_find, hfirst]
    simp [deserialize_of_accepts st d c hacc]
  simp [resourceFronteggPermissionRead, hget, hscan, HasError, refreshed]
  exact hid

/-- C3, on a list with a non-matching record followed by two records of
identity `p-1`: the handle is refreshed from the first of the two. -/
theorem read_refreshes_from_first_match_witness :
    (resourceFronteggPermissionRead acceptAll
      (constClient [{ ID := "p-2", Name := "other" }, remoteReadUsers,
        { ID := "p-1", Name := "later" }]) ()
      { id := "p-1", name := "stale" }).d.name = "Read Users" ∧
    (resourceFronteggPermissionRead acceptAll
      (constClient [{ ID := "p-2", Name := "other" }, remoteReadUsers,
        { ID := "p-1", Name := "later" }]) ()
      { id := "p-1", name := "stale" }).d.created_at = "2024-01-01T00:00:00Z" :=
  let h := read_refreshes_from_first_match acceptAll
    (constClient [{ ID := "p-2", Name := "other" }, remoteReadUsers,
      { ID := "p-1", Name := "later" }]) () ()
    { id := "p-1", name := "stale" }
    [{ ID := "p-2", Name := "other" }, remoteReadUsers, { ID := "p-1", Name := "later" }]
    remoteReadUsers rfl (by decide) (by decide)
  ⟨h.2.1, h.2.2.2.2.2.1⟩

/-! ## Update -/

/-- C4: Update-then-refresh. When the partial-update call succeeds, leaving the
remote in state `s1`, Update returns the diagnostics and leaves the handle
(its `created_at` in particular) that Read does when run on the handle as
Update received it against the remote in state `s1`: the patch call has
written nothing into the handle, and Update's remote calls are the patch
followed by those of that Read. -/
theorem update_then_refresh {σ : Type} (st : StateStore) (client : Client σ) (s s1 : σ)
    (d : ResourceData)
    (hpatch : client.Patch s (fronteggPermissionPath ++ "/" ++ d.Id)
      (resourceFronteggPermissionSerialize d) = (s1, none)) :
    (resourceFronteggPermissionUpdate st client s d).diags =
      (resourceFronteggPermissionRead st client s1 d).diags ∧
    (resourceFronteggPermissionUpdate st client s d).d =
      (resourceFronteggPermissionRead st client s1 d).d ∧
    (resourceFronteggPermissionUpdate st client s d).d.created_at =
      (resourceFronteggPermissionRead st client s1 d).d.created_at ∧
    (resourceFronteggPermissionUpdate st client s d).remote =
      (resourceFronteggPermissionRead st client s1 d).remote ∧
    (resourceFronteggPermissionUpdate st client s d).calls =
      Call.Patch (fronteggPermissionPath ++ "/" ++ d.Id)
        (resourceFronteggPermissionSerialize d) ::
        (resourceFronteggPermissionRead st client s1 d).calls := by
  simp [resourceFronteggPermissionUpdate, hpatch]

/-- C4, on a remote that stores its records: the handle renames `p-1`, and
after Update it shows the timestamp that a Read on the patched remote gives. -/
theorem update_then_refresh_witness :
    (resourceFronteggPermissionUpdate acceptAll storeClient [remoteReadUsers]
      { declaredReadUsers with id := "p-1", name := "Renamed" }).d =
    (resourceFronteggPermissionRead acceptAll storeClient
      [{ remoteReadUsers with Name := "Renamed" }]
      { declaredReadUsers with id := "p-1", name := "Renamed" }).d ∧
    (resourceFronteggPermissionUpdate acceptAll storeClient [remoteReadUsers]
      { declaredReadUsers with id := "p-1", name := "Renamed" }).d.created_at =
      "2024-01-01T00:00:00Z" :=
  let h := update_then_refresh acceptAll storeClient [remoteReadUsers]
    [{ remoteReadUsers with Name := "Renamed" }]
    { declaredReadUsers with id := "p-1", name := "Renamed" } (by decide)
  ⟨h.2.1, h.2.2.1.trans (by decide)⟩

/-! ## Remote errors and outbound payloads -/

/-- C5: Codec round trip. For every declared record `D` and every handle `t`
the result is written into (`D` itself included), when the store accepts the
writes, deserializing the serialization of `D` succeeds and leaves name, key,
category and description equal to those of `D`. Serialization is a function of
the handle that only reads it: it is given by the four attributes alone and
returns nothing but the wire record, so the identity and `created_at` of `D`
are as before. -/
theorem codec_round_trip (st : StateStore) (D t : ResourceData)
    (hacc : Accepts st (resourceFronteggPermissionSerialize D)) :
    (resourceFronteggPermissionDeserialize st t (resourceFronteggPermissionSerialize D)).2
      = none ∧
    (resourceFronteggPermissionDeserialize st t (resourceFronteggPermissionSerialize D)).1.name
      = D.name ∧
    (resourceFronteggPermissionDeserialize st t (resourceFronteggPermissionSerialize D)).1.key
      = D.key ∧
    (resourceFronteggPermissionDeserialize st t
      (resourceFronteggPermissionSerialize D)).1.category_id = D.category_id ∧
    (resourceFronteggPermissionDeserialize st t
      (resourceFronteggPermissionSerialize D)).1.description = D.description ∧
    (∀ i c, resourceFronteggPermissionSerialize { D with id := i, created_at := c }
      = resourceFronteggPermissionSerialize D) := by
  rw [deserialize_of_accepts st t _ hacc]
  simp [refreshed, resourceFronteggPermissionSerialize, ResourceData.Get]

/-- C5, on the declared record of the specification's scenario, written back
into itself. -/
theorem codec_round_trip_witness :
    (resourceFronteggPermissionDeserialize acceptAll declaredReadUsers
      (resourceFronteggPermissionSerialize declaredReadUsers)).2 = none ∧
    (resourceFronteggPermissionDeserialize acceptAll declaredReadUsers
      (resourceFronteggPermissionSerialize declaredReadUsers)).1.name = "Read Users" :=
  let h := codec_round_trip acceptAll declaredReadUsers declaredReadUsers (by decide)
  ⟨h.1, h.2.1⟩

/-- C10 as stated fails: with a store that rejects the assignment to `name`,
deserialization returns that error having attempted `name` only; the four
assignments that come after it are not attempted. -/
theorem deserialize_rejected_later_not_attempted :
    ¬ ∀ (st : StateStore) (d : ResourceData) (f : fronteggPermission)
        (pre post : List (String × String)) (k v : String) (e : GoError),
      assignments f = pre ++ (k, v) :: post →
      (∀ kv ∈ pre, st.reject kv.1 kv.2 = none) →
      st.reject k v = some e →
      (resourceFronteggPermissionDeserialize st d f).2 = some e ∧
      ∀ kv ∈ post,
        kv.1 ∈ (resourceFronteggPermissionDeserialize st d f).1.attempts.drop
          d.attempts.length := by
  intro h
  have hk := (h (rejectKey "name" { msg := "type mismatch" }) declaredReadUsers
    remoteReadUsers [] (assignments remoteReadUsers).tail "name" "Read Users"
    { msg := "type mismatch" } rfl (by simp) rfl).2 ("key", "read:users") (by decide)
  revert hk
  decide

/-- C10, amended: when the store rejects `(k, v)`, the first rejected of the
five assignments in the order name, key, category_id, description,
created_at, deserialization returns the error of that assignment; the
assignments it attempted are those before `k` and `k` itself, so none of the
later ones is attempted and the attributes they would write keep the values
they had. -/
theorem deserialize_stops_at_first_rejection (st : StateStore) (d : ResourceData)
    (f : fronteggPermission) (pre post : List (String × String)) (k v : String) (e : GoError)
    (hsplit : assignments f = pre ++ (k, v) :: post)
    (hpre : ∀ kv ∈ pre, st.reject kv.1 kv.2 = none)
    (hrej : st.reject k v = some e) :
    (resourceFronteggPermissionDeserialize st d f).2 = some e ∧
    (resourceFronteggPermissionDeserialize st d f).1.attempts =
      d.attempts ++ (pre.map Prod.fst ++ [k]) ∧
    (∀ kv ∈ post, kv.1 ∉ pre.map Prod.fst ++ [k]) ∧
    (∀ kv ∈ post, (resourceFronteggPermissionDeserialize st d f).1.Get kv.1 = d.Get kv.1) := by
  rcases pre with _ | ⟨p1, _ | ⟨p2, _ | ⟨p3, _ | ⟨p4, _ | ⟨p5, pre⟩⟩⟩⟩⟩
  · simp only [assignments, List.nil_append, List.cons.injEq, Prod.mk.injEq] at hsplit
    obtain ⟨⟨rfl, rfl⟩, rfl⟩ := hsplit
    simp [resourceFronteggPermissionDeserialize, Set_rejected _ _ _ _ _ hrej,
      ResourceData.SetId, ResourceData.Get]
  · simp only [assignments, List.cons_append, List.nil_append, List.cons.injEq,
      Prod.mk.injEq] at hsplit
    obtain ⟨rfl, ⟨rfl, rfl⟩, rfl⟩ := hsplit
    have h1 := hpre ("name", f.Name) (by simp)
    simp only at h1
    simp [resourceFronteggPermissionDeserialize, Set_name _ _ _ h1,
      Set_rejected _ _ _ _ _ hrej, ResourceData.SetId, ResourceData.Get]
  · simp only [assignments, List.cons_append, List.nil_append, List.cons.injEq,
      Prod.mk.injEq] at hsplit
    obtain ⟨rfl, rfl, ⟨rfl, rfl⟩, rfl⟩ := hsplit
    have h1 := hpre ("name", f.Name) (by simp)
    have h2 := hpre ("key", f.Key) (by simp)
    simp only at h1 h2
    simp [resourceFronteggPermissionDeserialize, Set_name _ _ _ h1, Set_key _ _ _ h2,
      Set_rejected _ _ _ _ _ hrej, ResourceData.SetId, ResourceData.Get]
  · simp only [assignments, List.cons_append, List.nil_append, List.cons.injEq,
      Prod.mk.injEq] at hsplit
    obtain ⟨rfl, rfl, rfl, ⟨rfl, rfl⟩, rfl⟩ := hsplit
    have h1 := hpre ("name", f.Name) (by simp)
    have h2 := hpre ("key", f.Key) (by simp)
    have h3 := hpre ("category_id", f.CategoryID) (by simp)
    simp only at h1 h2 h3
    simp [resourceFronteggPermissionDeserialize, Set_name _ _ _ h1, Set_key _ _ _ h2,
      Set_category_id _ _ _ h3, Set_rejected _ _ _ _ _ hrej, ResourceData.SetId,
      ResourceData.Get]
  · simp only [assignments, List.cons_append, List.nil_append, List.cons.injEq,
      Prod.mk.injEq] at hsplit
    obtain ⟨rfl, rfl, rfl, rfl, ⟨rfl, rfl⟩, rfl⟩ := hsplit
    have h1 := hpre ("name", f.Name) (by simp)
    have h2 := hpre ("key", f.Key) (by simp)
    have h3 := hpre ("category_id", f.CategoryID) (by simp)
    have h4 := hpre ("description", f.Description) (by simp)
    simp only at h1 h2 h3 h4
    simp [resourceFronteggPermissionDeserialize, Set_name _ _ _ h1, Set_key _ _ _ h2,
      Set_category_id _ _ _ h3, Set_description _ _ _ h4, Set_rejected _ _ _ _ _ hrej,
      ResourceData.SetId, ResourceData.Get]
  · exfalso
    have hlen := congrArg List.length hsplit
    simp [assignments] at hlen

/-- C10 amended, with a store that rejects `category_id`: the error is the
store's, `name`, `key` and `category_id` were attempted, `description` and
`created_at` were not. -/
theorem deserialize_stops_at_first_rejection_witness :
    (resourceFronteggPermissionDeserialize (rejectKey "category_id" { msg := "type mismatch" })
      declaredReadUsers remoteReadUsers).2 = some { msg := "type mismatch" } ∧
    (resourceFronteggPermissionDeserialize (rejectKey "category_id" { msg := "type mismatch" })
      declaredReadUsers remoteReadUsers).1.attempts = ["name", "key", "category_id"] :=
  let h := deserialize_stops_at_first_rejection
    (rejectKey "category_id" { msg := "type mismatch" }) declaredReadUsers remoteReadUsers
    [("name", "Read Users"), ("key", "read:users")]
    [("description", "desc"), ("created_at", "2024-01-01T00:00:00Z")]
    "category_id" "cat-1" { msg := "type mismatch" } rfl (by decide) rfl
  ⟨h.1, h.2.1⟩

end Provider
